import Mathlib

/-!
Verification of the log-access core of the mcp-agents-md server
(src/src/mcp_agent_memory/app.py): the append-only memory file operations
(read_memory_file, append_to_memory_file, get_file_stats, init_memory_file)
and the sliding-window rate limiter (check_rate_limit).

Modelling conventions:
* A Python str is a list of Unicode code points (List Char); Python len(s)
  is the code-point count, and the UTF-8 encoded byte length is computed
  separately by utf8Length.
* The backing file is Option (List Char): none when the file is absent.
* Fallible I/O is modelled by injected failure parameters.  For the
  read-only operations (read_memory_file, get_file_stats) the parameter is
  io : Option (List Char): some e means the operating system raises an
  exception carrying message e while the file is being opened or read.
  For append_to_memory_file the parameter is io : Option IoFailure, which
  also records where inside the try block the exception fires: at open or
  lock acquisition, before any byte is written, or during the buffered
  write / flush, after some prefix of the entry has already reached the
  file.  The source catches all of these in one except clause and converts
  them to the same error string.
* time.time() values are rationals; the limiter never needs more structure
  than an ordered field on timestamps.
* Concurrency: every append runs its write phase under an exclusive flock,
  so a set of concurrent appends takes effect as some serialization order,
  i.e. the sequential execution of an arbitrary permutation of the calls.
-/

namespace AgentMemory

/-- Whitespace characters stripped by Python str.strip (the ASCII subset;
Python also strips other Unicode whitespace, which no claim exercises). -/
def isPySpace (c : Char) : Bool :=
  c = ' ' || c = '\t' || c = '\n' || c = '\r' || c = '\x0b' || c = '\x0c'

/-- Python str.strip: remove leading and trailing whitespace. -/
def pyStrip (s : List Char) : List Char :=
  ((s.dropWhile isPySpace).reverse.dropWhile isPySpace).reverse

/-- Number of bytes of one code point in UTF-8. -/
def charUtf8Size (c : Char) : Nat :=
  if c.toNat < 0x80 then 1
  else if c.toNat < 0x800 then 2
  else if c.toNat < 0x10000 then 3
  else 4

/-- UTF-8 encoded byte length of a string. -/
def utf8Length (s : List Char) : Nat :=
  (s.map charUtf8Size).sum

/-- Default MAX_RULE_SIZE from app.py (os.getenv default "10000"). -/
def MAX_RULE_SIZE : Nat := 10000

/-- Default RATE_LIMIT_REQUESTS from app.py. -/
def RATE_LIMIT_REQUESTS : Nat := 60

/-- Default RATE_LIMIT_WINDOW in seconds from app.py. -/
def RATE_LIMIT_WINDOW : ℚ := 60

/-- Initial content written by init_memory_file when the file is absent:
the fixed header plus one initialization entry stamped initTs. -/
def initContent (initTs : List Char) : List Char :=
  "# Agent Memory\n\n- System initialized on ".toList ++ initTs ++ "\n".toList

/-- Result classification of append_to_memory_file, mirroring the four
distinct return strings of the source. -/
inductive AppendMsg where
  | emptyErr : AppendMsg
  | sizeErr : AppendMsg
  | ioErr : List Char → AppendMsg
  | ok : AppendMsg
deriving DecidableEq, Repr

/-- Rendered form of an accepted entry, from the f-string in the source:
a newline, then a dash list marker, then the bracketed timestamp, a space,
and the body trimmed of surrounding whitespace. -/
def renderEntry (timestamp rule : List Char) : List Char :=
  "\n- [".toList ++ timestamp ++ "] ".toList ++ pyStrip rule

/-- Point inside the try block of append_to_memory_file at which an
injected I/O failure raises, carrying the exception text: atOpen models an
exception while opening the file in append mode or acquiring the
exclusive lock, before any byte is written; duringWrite n models an
exception raised by the buffered write or the flush after the first n
characters of the rendered entry have already reached the file (n may be
anything up to the full entry, e.g. a flush failing after a complete
buffered write). -/
inductive IoFailure where
  | atOpen : List Char → IoFailure
  | duringWrite : Nat → List Char → IoFailure
deriving DecidableEq, Repr

/-- append_to_memory_file from app.py.  Validation order as in the source:
the emptiness check (not rule or not rule.strip()) runs first, then the
size check (len(rule) > MAX_RULE_SIZE) on the raw, untrimmed code-point
count, and only then is the file opened, locked, written and flushed.
Returns the new file content and the result classification.  Validation
failures return before the file is touched; the single except clause of
the source catches an exception anywhere in the try block and returns the
same I/O-error result whether it fired at open/lock time, leaving the
content unchanged, or during write/flush, leaving a prefix of the rendered
entry appended. -/
def append_to_memory_file (maxSize : Nat) (content : List Char)
    (timestamp rule : List Char) (io : Option IoFailure) :
    List Char × AppendMsg :=
  if rule.isEmpty || (pyStrip rule).isEmpty then
    (content, .emptyErr)
  else if maxSize < rule.length then
    (content, .sizeErr)
  else
    match io with
    | some (.atOpen e) => (content, .ioErr e)
    | some (.duringWrite n e) =>
      (content ++ (renderEntry timestamp rule).take n, .ioErr e)
    | none => (content ++ renderEntry timestamp rule, .ok)

/-- read_memory_file from app.py: returns the full content verbatim when
the file exists and the read succeeds; a missing file yields the ordinary
string "Error: Memory file not found."; any other failure yields
"Error reading file: " followed by the exception text.  The function is
total: it never propagates an exception. -/
def read_memory_file (file : Option (List Char)) (io : Option (List Char)) :
    List Char :=
  match file with
  | none => "Error: Memory file not found.".toList
  | some content =>
    match io with
    | some e => "Error reading file: ".toList ++ e
    | none => content

/-- Number of lines as counted by get_file_stats, which iterates the open
file (sum(1 for _ in f)): one line per newline, plus one for a trailing
fragment not ended by a newline. -/
def lineCount (s : List Char) : Nat :=
  if s = [] then 0
  else s.count '\n' + (if s.getLast? = some '\n' then 0 else 1)

/-- Shape of the dict returned by get_file_stats; optional fields model
keys absent from some branches of the source. -/
structure StatsResult where
  fileExists : Bool
  size_bytes : Option Nat
  line_count : Option Nat
  modified : Option (List Char)
  error : Option (List Char)
deriving DecidableEq, Repr

/-- get_file_stats from app.py.  A missing file (FileNotFoundError from
os.stat) yields the zeroed absent-marked dict; an injected I/O failure on
an existing file (any other exception) yields the partial dict carrying
only the exists flag, hard-coded to False, and the error text; otherwise
the full stats are returned.  The function is total: no branch raises. -/
def get_file_stats (file : Option (List Char)) (mtime : List Char)
    (io : Option (List Char)) : StatsResult :=
  match file with
  | none => ⟨false, some 0, some 0, none, none⟩
  | some s =>
    match io with
    | some e => ⟨false, none, none, none, some e⟩
    | none => ⟨true, some (utf8Length s), some (lineCount s), some mtime, none⟩

/-- One append call as issued by a client: the store-assigned timestamp
captured at write time, and the raw body. -/
structure Call where
  timestamp : List Char
  rule : List Char
deriving DecidableEq, Repr

/-- Sequential execution of a list of append calls against a starting
content, without I/O failures: the serialization produced by the
exclusive-lock protocol. -/
def runAppends (maxSize : Nat) (content : List Char) (calls : List Call) :
    List Char :=
  calls.foldl
    (fun c k => (append_to_memory_file maxSize c k.timestamp k.rule none).1)
    content

/-- Lazy pruning step of check_rate_limit: keep exactly the timestamps
whose age is strictly below the window. -/
def prunedTimes (window : ℚ) (now : ℚ) (ts : List ℚ) : List ℚ :=
  ts.filter (fun t => decide (now - t < window))

/-- check_rate_limit from app.py.  The store entry for the client is first
replaced by its pruned form; if the pruned count has reached the limit the
call is denied and the pruned list is what remains stored; otherwise now
is appended and the call is admitted.  Returns (allowed, new stored list). -/
def check_rate_limit (limit : Nat) (window : ℚ) (ts : List ℚ) (now : ℚ) :
    Bool × List ℚ :=
  let pruned := prunedTimes window now ts
  if limit ≤ pruned.length then
    (false, pruned)
  else
    (true, pruned ++ [now])

/-- Fold a sequence of call instants through the limiter for one identity,
collecting the admit/deny answers and the final stored list. -/
def runLimiter (limit : Nat) (window : ℚ) (instants : List ℚ) :
    List Bool × List ℚ :=
  instants.foldl
    (fun acc now =>
      let r := check_rate_limit limit window acc.2 now
      (acc.1 ++ [r.1], r.2))
    ([], [])

/-! Theorems -/

/-- An append whose body is non-empty after trimming and whose raw
code-point count is within the limit is accepted and appends exactly the
rendered entry. -/
theorem append_ok (maxSize : Nat) (content ts rule : List Char)
    (h1 : pyStrip rule ≠ []) (h2 : rule.length ≤ maxSize) :
    append_to_memory_file maxSize content ts rule none =
      (content ++ renderEntry ts rule, .ok) := by
  have hre : rule ≠ [] := by
    intro hr
    exact h1 (by simp [hr, pyStrip])
  have e1 : (rule.isEmpty || (pyStrip rule).isEmpty) = false := by
    simp [List.isEmpty_iff, hre, h1]
  have e2 : ¬ (maxSize < rule.length) := Nat.not_lt.mpr h2
  simp [append_to_memory_file, e1, e2]

/-- Unfolding one step of the serialized execution. -/
theorem runAppends_cons (maxSize : Nat) (c : List Char) (k : Call)
    (ks : List Call) :
    runAppends maxSize c (k :: ks) =
      runAppends maxSize
        (append_to_memory_file maxSize c k.timestamp k.rule none).1 ks :=
  rfl

/-- The serialized execution of accepted calls appends exactly the
concatenation of the rendered entries, in order, after the prior content. -/
theorem runAppends_eq_append (maxSize : Nat) (c0 : List Char)
    (calls : List Call)
    (h : ∀ k ∈ calls, pyStrip k.rule ≠ [] ∧ k.rule.length ≤ maxSize) :
    runAppends maxSize c0 calls =
      c0 ++ (calls.map fun k => renderEntry k.timestamp k.rule).flatten := by
  induction calls generalizing c0 with
  | nil => simp [runAppends]
  | cons k ks ih =>
    have hk := h k (by simp)
    have hks : ∀ x ∈ ks, pyStrip x.rule ≠ [] ∧ x.rule.length ≤ maxSize :=
      fun x hx => h x (by simp [hx])
    rw [runAppends_cons, append_ok maxSize c0 k.timestamp k.rule hk.1 hk.2,
      ih (c0 ++ renderEntry k.timestamp k.rule) hks]
    simp

/-- Membership in the pruned list: exactly the stored timestamps with age
strictly below the window survive pruning. -/
theorem mem_prunedTimes {window now t : ℚ} {ts : List ℚ} :
    t ∈ prunedTimes window now ts ↔ t ∈ ts ∧ now - t < window := by
  simp [prunedTimes, List.mem_filter]

/-- Unfolded shape of check_rate_limit. -/
theorem check_rate_limit_eq (limit : Nat) (window : ℚ) (ts : List ℚ)
    (now : ℚ) :
    check_rate_limit limit window ts now =
      if limit ≤ (prunedTimes window now ts).length then
        (false, prunedTimes window now ts)
      else
        (true, prunedTimes window now ts ++ [now]) :=
  rfl

/-- C10: read_memory_file is total (never raises) and signals a missing
file in-band: the missing-file result is the ordinary content string
"Error: Memory file not found.", so reading an existing file whose content
is that exact text returns a value identical to reading a missing file,
and a caller comparing return values alone cannot distinguish the two. -/
theorem read_notfound_inband :
    read_memory_file none none = "Error: Memory file not found.".toList ∧
    read_memory_file (some ("Error: Memory file not found.".toList)) none =
      read_memory_file none none :=
  ⟨rfl, rfl⟩

/-- C7 counterexample: an exception raised during the write or flush of a
valid append — here after the first 3 characters of the entry reached the
file — makes append_to_memory_file return an error result while the file
content has changed from the empty prior content to the half-written
fragment of newline, dash, space, so not every error return leaves the
content exactly as it was before the call. -/
theorem append_write_failure_partial :
    (append_to_memory_file 10 [] ['T'] ['h', 'i']
        (some (IoFailure.duringWrite 3 ['E']))).2 ≠ AppendMsg.ok ∧
    (append_to_memory_file 10 [] ['T'] ['h', 'i']
        (some (IoFailure.duringWrite 3 ['E']))).1 = ['\n', '-', ' '] ∧
    (['\n', '-', ' '] : List Char) ≠ [] := by
  decide

/-- C7 amended: validation completes fully before any byte is written and
write plus flush is the last step, so a ValidationError or
SizeLimitExceeded return, and an I/O failure at open or lock acquisition,
leave the file content exactly unchanged; an I/O failure raised during
the write or flush, however, may leave a prefix of the single rendered
entry appended while the same error result is returned.  Even then no
error path alters or deletes a previously present byte: on every non-ok
result the content is the prior content followed by some prefix of the
rendered entry. -/
theorem append_error_paths (maxSize : Nat) (content ts rule : List Char)
    (io : Option IoFailure)
    (h : (append_to_memory_file maxSize content ts rule io).2 ≠
      AppendMsg.ok) :
    (∃ k, (append_to_memory_file maxSize content ts rule io).1 =
      content ++ (renderEntry ts rule).take k) ∧
    ((append_to_memory_file maxSize content ts rule io).2 =
        AppendMsg.emptyErr →
      (append_to_memory_file maxSize content ts rule io).1 = content) ∧
    ((append_to_memory_file maxSize content ts rule io).2 =
        AppendMsg.sizeErr →
      (append_to_memory_file maxSize content ts rule io).1 = content) ∧
    (∀ e, io = some (IoFailure.atOpen e) →
      (append_to_memory_file maxSize content ts rule io).1 = content) := by
  by_cases h1 : (rule.isEmpty || (pyStrip rule).isEmpty) = true
  · have he : append_to_memory_file maxSize content ts rule io =
        (content, .emptyErr) := by
      simp [append_to_memory_file, h1]
    rw [he]
    exact ⟨⟨0, by simp⟩, fun _ => rfl, fun hs => by simp at hs,
      fun e _ => rfl⟩
  · by_cases h2 : maxSize < rule.length
    · have hs : append_to_memory_file maxSize content ts rule io =
          (content, .sizeErr) := by
        simp [append_to_memory_file, h1, h2]
      rw [hs]
      exact ⟨⟨0, by simp⟩, fun hemp => by simp at hemp, fun _ => rfl,
        fun e _ => rfl⟩
    · cases io with
      | none =>
        exact absurd (by simp [append_to_memory_file, h1, h2]) h
      | some f =>
        cases f with
        | atOpen e =>
          have hio : append_to_memory_file maxSize content ts rule
              (some (IoFailure.atOpen e)) = (content, .ioErr e) := by
            simp [append_to_memory_file, h1, h2]
          rw [hio]
          exact ⟨⟨0, by simp⟩, fun hemp => by simp at hemp,
            fun hsz => by simp at hsz, fun e2 _ => rfl⟩
        | duringWrite n e =>
          have hio : append_to_memory_file maxSize content ts rule
              (some (IoFailure.duringWrite n e)) =
                (content ++ (renderEntry ts rule).take n, .ioErr e) := by
            simp [append_to_memory_file, h1, h2]
          rw [hio]
          exact ⟨⟨n, rfl⟩, fun hemp => by simp at hemp,
            fun hsz => by simp at hsz, fun e2 heq => by simp at heq⟩

/-- C7 amended witness: a write-phase failure on a valid body returns an
error and extends the prior content by a prefix of the rendered entry. -/
theorem append_error_paths_witness :
    (append_to_memory_file 10 ['a'] ['T'] ['h', 'i']
        (some (IoFailure.duringWrite 3 ['E']))).2 ≠ AppendMsg.ok ∧
    ((∃ k, (append_to_memory_file 10 ['a'] ['T'] ['h', 'i']
          (some (IoFailure.duringWrite 3 ['E']))).1 =
        ['a'] ++ (renderEntry ['T'] ['h', 'i']).take k) ∧
      ((append_to_memory_file 10 ['a'] ['T'] ['h', 'i']
            (some (IoFailure.duringWrite 3 ['E']))).2 =
          AppendMsg.emptyErr →
        (append_to_memory_file 10 ['a'] ['T'] ['h', 'i']
            (some (IoFailure.duringWrite 3 ['E']))).1 = ['a']) ∧
      ((append_to_memory_file 10 ['a'] ['T'] ['h', 'i']
            (some (IoFailure.duringWrite 3 ['E']))).2 =
          AppendMsg.sizeErr →
        (append_to_memory_file 10 ['a'] ['T'] ['h', 'i']
            (some (IoFailure.duringWrite 3 ['E']))).1 = ['a']) ∧
      (∀ e, (some (IoFailure.duringWrite 3 ['E']) : Option IoFailure) =
          some (IoFailure.atOpen e) →
        (append_to_memory_file 10 ['a'] ['T'] ['h', 'i']
            (some (IoFailure.duringWrite 3 ['E']))).1 = ['a'])) :=
  ⟨by decide,
    append_error_paths 10 ['a'] ['T'] ['h', 'i']
      (some (IoFailure.duringWrite 3 ['E'])) (by decide)⟩

/-- C8: a body that is empty or whitespace-only after trimming is rejected
with the emptiness error — never with the size error — regardless of its
raw length (the emptiness check runs before the size check), leaving the
content unchanged; and appending the one-character body x under the
default size limit succeeds. -/
theorem empty_rule_rejected (maxSize : Nat) (content ts rule : List Char)
    (h : pyStrip rule = []) :
    (append_to_memory_file maxSize content ts rule none).2 =
      AppendMsg.emptyErr ∧
    (append_to_memory_file maxSize content ts rule none).1 = content ∧
    (append_to_memory_file MAX_RULE_SIZE content ts ['x'] none).2 =
      AppendMsg.ok := by
  refine ⟨?_, ?_, ?_⟩
  · simp [append_to_memory_file, h]
  · simp [append_to_memory_file, h]
  · simp [append_to_memory_file, MAX_RULE_SIZE, pyStrip, List.dropWhile,
      isPySpace]

/-- C8 witness: the whitespace body from the spec example, under a
configured maximum of 3 that its raw length 6 exceeds, is still rejected
as empty rather than oversized. -/
theorem empty_rule_rejected_witness :
    pyStrip "   \n\t ".toList = [] ∧
    ((append_to_memory_file 3 [] [] "   \n\t ".toList none).2 =
        AppendMsg.emptyErr ∧
      (append_to_memory_file 3 [] [] "   \n\t ".toList none).1 = [] ∧
      (append_to_memory_file MAX_RULE_SIZE [] [] ['x'] none).2 =
        AppendMsg.ok) :=
  ⟨by decide, empty_rule_rejected 3 [] [] "   \n\t ".toList (by decide)⟩

/-- C9 counterexample: on a failure other than file-not-found — here an
injected I/O error hitting an existing file with content a — the source
returns the partial dict with the exists flag hard-coded to False, even
though the file exists, so the flag is not truthful. -/
theorem stats_exists_flag_untruthful :
    get_file_stats (some ['a']) [] (some ['E']) =
      ⟨false, none, none, none, some ['E']⟩ ∧
    (get_file_stats (some ['a']) [] (some ['E'])).fileExists = false :=
  ⟨rfl, rfl⟩

/-- C9 amended: get_file_stats never raises; a missing file yields the
zeroed absent-marked result, and any other failure yields a partial result
carrying an error description with the exists flag always false,
regardless of whether the file actually exists. -/
theorem stats_never_raises (mt s e : List Char) (io : Option (List Char)) :
    get_file_stats none mt io = ⟨false, some 0, some 0, none, none⟩ ∧
    get_file_stats (some s) mt (some e) = ⟨false, none, none, none, some e⟩ :=
  ⟨rfl, rfl⟩

/-- C4: with limit 3 and window 60 under a fixed clock, three successive
calls for one identity are admitted and the fourth immediate call is
denied; after advancing the clock to at least 60 seconds past the first
call a further call is admitted again; and the validity boundary is
strict: a stored timestamp survives pruning exactly when its age is
strictly below the window, so age equal to the window is expired. -/
theorem rate_limit_boundary :
    (runLimiter 3 60 [0, 0, 0, 0]).1 = [true, true, true, false] ∧
    (∀ d : ℚ, 60 ≤ d →
      (check_rate_limit 3 60 (runLimiter 3 60 [0, 0, 0, 0]).2 d).1 = true) ∧
    (∀ (window now t : ℚ) (ts : List ℚ),
      t ∈ prunedTimes window now ts ↔ t ∈ ts ∧ now - t < window) := by
  refine ⟨?_, ?_, ?_⟩
  · norm_num [runLimiter, check_rate_limit, prunedTimes, List.filter]
  · intro d hd
    have h2 : (runLimiter 3 60 [0, 0, 0, 0]).2 = [0, 0, 0] := by
      norm_num [runLimiter, check_rate_limit, prunedTimes, List.filter]
    have hfalse : (decide (d < 60)) = false := decide_eq_false (not_lt.mpr hd)
    rw [h2]
    simp [check_rate_limit, prunedTimes, List.filter, hfalse]
  · intro window now t ts
    exact mem_prunedTimes

/-- C4 witness: at exactly 60 seconds after the first call the identity is
admitted again. -/
theorem rate_limit_boundary_witness :
    (60 : ℚ) ≤ 60 ∧
    (check_rate_limit 3 60 (runLimiter 3 60 [0, 0, 0, 0]).2 60).1 = true :=
  ⟨by norm_num, rate_limit_boundary.2.1 60 (by norm_num)⟩

/-- C5: for every prior stored state (hence for every reachable one) and a
positive window, immediately after check_rate_limit returns — admit or
deny — every stored timestamp for the identity has age strictly within
the window relative to the evaluation instant, and after an admission the
stored count never exceeds the configured limit. -/
theorem rate_limit_state_invariant (limit : Nat) (window now : ℚ)
    (ts : List ℚ) (hw : 0 < window) :
    (∀ t ∈ (check_rate_limit limit window ts now).2, now - t < window) ∧
    ((check_rate_limit limit window ts now).1 = true →
      (check_rate_limit limit window ts now).2.length ≤ limit) := by
  by_cases hle : limit ≤ (prunedTimes window now ts).length
  · rw [check_rate_limit_eq, if_pos hle]
    refine ⟨fun t ht => (mem_prunedTimes.mp ht).2, fun htrue => ?_⟩
    simp at htrue
  · rw [check_rate_limit_eq, if_neg hle]
    refine ⟨fun t ht => ?_, fun _ => ?_⟩
    · rcases List.mem_append.mp ht with h1 | h2
      · exact (mem_prunedTimes.mp h1).2
      · simp at h2
        subst h2
        simpa using hw
    · have hlt : (prunedTimes window now ts).length < limit :=
        Nat.lt_of_not_le hle
      simpa [List.length_append] using Nat.succ_le_of_lt hlt

/-- C5 witness: first call of a fresh identity at instant 0 with the
claim parameters. -/
theorem rate_limit_state_invariant_witness :
    (0 : ℚ) < 60 ∧
    ((∀ t ∈ (check_rate_limit 3 60 [] 0).2, (0 : ℚ) - t < 60) ∧
      ((check_rate_limit 3 60 [] 0).1 = true →
        (check_rate_limit 3 60 [] 0).2.length ≤ 3)) :=
  ⟨by norm_num, rate_limit_state_invariant 3 60 0 [] (by norm_num)⟩

/-- C6 counterexample: a denied call can still change the stored state.
With limit 1 and window 60, state [0, 50] and evaluation instant 100, the
call is denied, yet the stored list afterwards is [50], not [0, 50]: the
expired timestamp 0 was pruned and the pruned list was written back. -/
theorem deny_changes_state :
    (check_rate_limit 1 60 [0, 50] 100).1 = false ∧
    (check_rate_limit 1 60 [0, 50] 100).2 ≠ [0, 50] := by
  norm_num [check_rate_limit, prunedTimes, List.filter]

/-- C6 amended: on a denied call no timestamp is recorded — the stored
list becomes exactly the pruned prior list, a sublist of the prior state —
but the lazy pruning itself may change the stored state by removing
expired timestamps. -/
theorem deny_prunes_only (limit : Nat) (window : ℚ) (ts : List ℚ) (now : ℚ)
    (h : (check_rate_limit limit window ts now).1 = false) :
    (check_rate_limit limit window ts now).2 = prunedTimes window now ts ∧
    (check_rate_limit limit window ts now).2.Sublist ts := by
  by_cases hle : limit ≤ (prunedTimes window now ts).length
  · refine ⟨by rw [check_rate_limit_eq, if_pos hle], ?_⟩
    rw [check_rate_limit_eq, if_pos hle]
    exact List.filter_sublist ts
  · rw [check_rate_limit_eq, if_neg hle] at h
    simp at h

/-- C6 witness: the deny at instant 100 on state [0, 50] stores exactly
the pruned list [50]. -/
theorem deny_prunes_only_witness :
    (check_rate_limit 1 60 [0, 50] 100).1 = false ∧
    ((check_rate_limit 1 60 [0, 50] 100).2 = prunedTimes 60 100 [0, 50] ∧
      (check_rate_limit 1 60 [0, 50] 100).2.Sublist [0, 50]) :=
  ⟨by norm_num [check_rate_limit, prunedTimes, List.filter],
    deny_prunes_only 1 60 [0, 50] 100
      (by norm_num [check_rate_limit, prunedTimes, List.filter])⟩

/-- C1: after any sequence of successful appends on the initialized file,
a read returns exactly the initial content followed by the rendered
entries — newline, dash bracket, store-assigned timestamp, bracket space,
trimmed body — concatenated in acceptance order; and no append, on any
path, alters or deletes a byte present before it: the resulting content
always extends the prior content by some suffix. -/
theorem append_only_log (maxSize : Nat) (ts0 : List Char) (calls : List Call)
    (h : ∀ k ∈ calls, pyStrip k.rule ≠ [] ∧ k.rule.length ≤ maxSize) :
    read_memory_file (some (runAppends maxSize (initContent ts0) calls))
        none =
      initContent ts0 ++
        (calls.map fun k => renderEntry k.timestamp k.rule).flatten ∧
    (∀ (content ts rule : List Char) (io : Option IoFailure),
      ∃ suffix, (append_to_memory_file maxSize content ts rule io).1 =
        content ++ suffix) := by
  constructor
  · simpa [read_memory_file] using
      runAppends_eq_append maxSize (initContent ts0) calls h
  · intro content ts rule io
    rcases io with _ | (e | ⟨n, e⟩) <;>
      simp only [append_to_memory_file] <;>
      split_ifs <;>
      first
        | exact ⟨_, rfl⟩
        | exact ⟨[], by simp⟩

/-- Two concrete calls used to instantiate the log theorems. -/
def demoCalls : List Call :=
  [⟨"2024-01-01T00:00:00".toList, "hello".toList⟩,
    ⟨"2024-01-01T00:00:01".toList, "  world ".toList⟩]

/-- C1 witness: two successful appends on the initialized file. -/
theorem append_only_log_witness :
    (∀ k ∈ demoCalls, pyStrip k.rule ≠ [] ∧ k.rule.length ≤ 10000) ∧
    (read_memory_file
          (some (runAppends 10000 (initContent "T".toList) demoCalls))
          none =
        initContent "T".toList ++
          (demoCalls.map fun k => renderEntry k.timestamp k.rule).flatten ∧
      (∀ (content ts rule : List Char) (io : Option IoFailure),
        ∃ suffix, (append_to_memory_file 10000 content ts rule io).1 =
          content ++ suffix)) :=
  ⟨by decide, append_only_log 10000 "T".toList demoCalls (by decide)⟩

/-- C2: concurrent appends serialize through the exclusive lock, so their
combined effect is the sequential execution of some permutation of the
calls; for every such completion order, every call with a valid body
succeeds, the file becomes the prior content followed by all rendered
entries in that order, and every one of the N rendered entries appears
fully formed — as one contiguous block — in the final content. -/
theorem concurrent_append_serialization (maxSize : Nat) (c0 : List Char)
    (calls calls2 : List Call) (hperm : calls2.Perm calls)
    (h : ∀ k ∈ calls, pyStrip k.rule ≠ [] ∧ k.rule.length ≤ maxSize) :
    (∀ k ∈ calls2, ∀ content : List Char,
      (append_to_memory_file maxSize content k.timestamp k.rule none).2 =
        AppendMsg.ok) ∧
    runAppends maxSize c0 calls2 =
      c0 ++ (calls2.map fun k => renderEntry k.timestamp k.rule).flatten ∧
    (∀ k ∈ calls, ∃ pre post,
      runAppends maxSize c0 calls2 =
        pre ++ renderEntry k.timestamp k.rule ++ post) := by
  have h2 : ∀ k ∈ calls2, pyStrip k.rule ≠ [] ∧ k.rule.length ≤ maxSize :=
    fun k hk => h k (hperm.mem_iff.mp hk)
  refine ⟨?_, runAppends_eq_append maxSize c0 calls2 h2, ?_⟩
  · intro k hk content
    rw [append_ok maxSize content k.timestamp k.rule (h2 k hk).1 (h2 k hk).2]
  · intro k hk
    obtain ⟨l1, l2, hsplit⟩ := List.append_of_mem (hperm.mem_iff.mpr hk)
    rw [runAppends_eq_append maxSize c0 calls2 h2, hsplit]
    refine ⟨c0 ++ (l1.map fun x => renderEntry x.timestamp x.rule).flatten,
      (l2.map fun x => renderEntry x.timestamp x.rule).flatten, ?_⟩
    simp

/-- C2 witness: the two demo calls completing in the reversed order. -/
theorem concurrent_append_serialization_witness :
    ((demoCalls.reverse).Perm demoCalls ∧
      ∀ k ∈ demoCalls, pyStrip k.rule ≠ [] ∧ k.rule.length ≤ 10000) ∧
    ((∀ k ∈ demoCalls.reverse, ∀ content : List Char,
        (append_to_memory_file 10000 content k.timestamp k.rule none).2 =
          AppendMsg.ok) ∧
      runAppends 10000 [] demoCalls.reverse =
        [] ++
          (demoCalls.reverse.map
            fun k => renderEntry k.timestamp k.rule).flatten ∧
      (∀ k ∈ demoCalls, ∃ pre post,
        runAppends 10000 [] demoCalls.reverse =
          pre ++ renderEntry k.timestamp k.rule ++ post)) :=
  ⟨⟨List.reverse_perm demoCalls, by decide⟩,
    concurrent_append_serialization 10000 [] demoCalls demoCalls.reverse
      (List.reverse_perm demoCalls) (by decide)⟩

/-- Trimming a string whose first and last characters are not whitespace
leaves it unchanged. -/
theorem pyStrip_sandwich (a b : Char) (l : List Char)
    (ha : isPySpace a = false) (hb : isPySpace b = false) :
    pyStrip (a :: (l ++ [b])) = a :: (l ++ [b]) := by
  have h1 : (a :: (l ++ [b])).dropWhile isPySpace = a :: (l ++ [b]) :=
    List.dropWhile_cons_of_neg (by simp [ha])
  have h2 : (a :: (l ++ [b])).reverse = b :: (l.reverse ++ [a]) := by
    simp
  have h3 : (b :: (l.reverse ++ [a])).dropWhile isPySpace =
      b :: (l.reverse ++ [a]) :=
    List.dropWhile_cons_of_neg (by simp [hb])
  rw [pyStrip, h1, h2, h3]
  simp

/-- Body exhibiting the code-point versus byte-length divergence: 9999
ASCII characters followed by one two-byte character, so 10000 code points
but 10001 UTF-8 bytes. -/
def c3rule : List Char := List.replicate 9999 'x' ++ ['é']

/-- C3 counterexample: the source compares Python len — the code-point
count — against MAX_RULE_SIZE, not the encoded byte length.  c3rule has
UTF-8 byte length MAX_RULE_SIZE + 1, which the claim says must be rejected
with the size error, yet its code-point count is exactly MAX_RULE_SIZE and
the append succeeds. -/
theorem size_check_counterexample :
    utf8Length c3rule = MAX_RULE_SIZE + 1 ∧
    c3rule.length = MAX_RULE_SIZE ∧
    (append_to_memory_file MAX_RULE_SIZE [] [] c3rule none).2 =
      AppendMsg.ok := by
  have hshape : c3rule = 'x' :: (List.replicate 9998 'x' ++ ['é']) := by
    rw [c3rule, show (9999 : Nat) = 9998 + 1 by norm_num,
      List.replicate_succ, List.cons_append]
  have hstrip : pyStrip c3rule = c3rule := by
    rw [hshape]
    exact pyStrip_sandwich 'x' 'é' (List.replicate 9998 'x')
      (by decide) (by decide)
  have hlen : c3rule.length = 10000 := by
    rw [c3rule]
    simp only [List.length_append, List.length_replicate,
      List.length_singleton]
  refine ⟨?_, ?_, ?_⟩
  · have hx : charUtf8Size 'x' = 1 := by decide
    have he : charUtf8Size 'é' = 2 := by decide
    rw [utf8Length, c3rule]
    simp only [List.map_append, List.map_replicate, List.map_cons,
      List.map_nil, List.sum_append, List.sum_replicate, List.sum_cons,
      List.sum_nil, hx, he, smul_eq_mul, MAX_RULE_SIZE]
    norm_num
  · rw [hlen, MAX_RULE_SIZE]
  · have hne : pyStrip c3rule ≠ [] := by
      rw [hstrip, hshape]
      exact List.cons_ne_nil _ _
    rw [append_ok MAX_RULE_SIZE [] [] c3rule hne
      (by rw [hlen, MAX_RULE_SIZE])]

/-- C3 amended: the size comparison is against the raw, untrimmed
code-point count of the body (Python len), which coincides with the
encoded byte length only for ASCII bodies — not against the byte length,
the rendered length, or the trimmed length.  For a body non-empty after
trimming, an append with code-point count exactly the configured maximum
succeeds, and one with count maximum + 1 fails with the size error,
leaving the content unchanged. -/
theorem size_check_codepoints (maxSize : Nat) (content ts rule : List Char)
    (hne : pyStrip rule ≠ []) :
    (rule.length = maxSize →
      (append_to_memory_file maxSize content ts rule none).2 =
        AppendMsg.ok) ∧
    (rule.length = maxSize + 1 →
      (append_to_memory_file maxSize content ts rule none).2 =
        AppendMsg.sizeErr ∧
      (append_to_memory_file maxSize content ts rule none).1 = content) := by
  have hre : rule ≠ [] := by
    intro hr
    exact hne (by simp [hr, pyStrip])
  constructor
  · intro hl
    rw [append_ok maxSize content ts rule hne (le_of_eq hl)]
  · intro hl
    have hgt : maxSize < rule.length := by omega
    have e1 : (rule.isEmpty || (pyStrip rule).isEmpty) = false := by
      simp [List.isEmpty_iff, hre, hne]
    constructor <;> simp [append_to_memory_file, e1, hgt]

/-- C3 amended witness: configured maximum 2 with the bodies xx and xxx. -/
theorem size_check_codepoints_witness :
    pyStrip ['x', 'x'] ≠ [] ∧
    ((['x', 'x'] : List Char).length = 2 →
      (append_to_memory_file 2 [] [] ['x', 'x'] none).2 = AppendMsg.ok) ∧
    ((['x', 'x'] : List Char).length = 2 + 1 →
      (append_to_memory_file 2 [] [] ['x', 'x'] none).2 =
        AppendMsg.sizeErr ∧
      (append_to_memory_file 2 [] [] ['x', 'x'] none).1 = []) :=
  ⟨by decide, size_check_codepoints 2 [] [] ['x', 'x'] (by decide)⟩

end AgentMemory
